import Mathlib

/-!
Shallow embedding of `src/server/src/services/auth.ts` (the credential and
session-token subsystem): local `login`/`register`, `refreshToken`, and the
federated GitHub flow `githubData`.  The abstract relational store is a list
of rows; `db("users").select().where({...})` is `List.filter`; `insert`
appends a row with a store-assigned fresh id.  External libraries used by the
source (`jsonwebtoken`, `bcrypt`) are modelled by their documented observable
behaviour.
-/

namespace InstagramClone

/-- Typical process configuration (`process.env` secrets and TTLs). -/
structure Env where
  refreshSecret : String
  accessSecret : String
  refreshExpiration : Nat
  accessExpiration : Nat
deriving Repr, DecidableEq

/-- Model of a bcrypt hash string.  A real bcrypt hash embeds its salt and is
one-way; for verification purposes the model records the salt and the hashed
password, which is exactly the information `bcrypt.compare` can recover. -/
structure BcryptHash where
  salt : Nat
  plain : String
deriving Repr, DecidableEq

/-- Model of `bcrypt.hash(password, 12)`; the per-call random salt is made an
explicit parameter. -/
def bcryptHash (password : String) (salt : Nat) : BcryptHash :=
  ⟨salt, password⟩

/-- Errors a service call can end in.  `appError s m` is the repository's
typed `AppError(status, message)`; the remaining constructors are the raw
errors of the external libraries and the JS runtime, which are not
`AppError`s: `jwtInvalid`/`jwtExpired` are `jsonwebtoken`'s
`JsonWebTokenError`/`TokenExpiredError`, `bcryptError` is node-bcrypt's
rejection, `typeError` is a JS `TypeError`. -/
inductive Err where
  | appError (status : Nat) (message : String)
  | jwtInvalid
  | jwtExpired
  | bcryptError (message : String)
  | typeError (message : String)
deriving Repr, DecidableEq

/-- Model of node-bcrypt `compare(data, hash)` where `hash` is the value read
from the nullable `password` column: when the column is NULL the library
rejects its promise with `Error("data and hash arguments required")` (it
never reaches the native comparison); when a hash is present it resolves to
whether the password matches. -/
def bcryptCompare (password : String) (hash : Option BcryptHash) : Except Err Bool :=
  match hash with
  | none => .error (.bcryptError "data and hash arguments required")
  | some h => .ok (decide (password = h.plain))

/-- Token payload `{ userId, tokenVersion }`. -/
structure Payload where
  userId : Nat
  tokenVersion : Nat
deriving Repr, DecidableEq

/-- Model of a signed JWT: the payload together with the signing secret, the
issue time and the `expiresIn` TTL (so `exp = iat + ttl`). -/
structure Jwt where
  payload : Payload
  secret : String
  iat : Nat
  ttl : Nat
deriving Repr, DecidableEq

/-- Model of `jwt.sign(payload, secret, { expiresIn })` at time `now`. -/
def jwtSign (p : Payload) (secret : String) (now ttl : Nat) : Jwt :=
  ⟨p, secret, now, ttl⟩

/-- Model of `jwt.verify(token, secret)` at clock time `now`: a token signed
with a different secret fails with `JsonWebTokenError` (signature-kind), an
expired token (`now ≥ iat + ttl`, jsonwebtoken treats `clock ≥ exp` as
expired) fails with `TokenExpiredError`; the signature is checked before the
expiry, as in the library. -/
def jwtVerify (t : Jwt) (secret : String) (now : Nat) : Except Err Payload :=
  if t.secret = secret then
    if t.iat + t.ttl ≤ now then .error .jwtExpired
    else .ok t.payload
  else .error .jwtInvalid

/-- Row of the `users` table.  `password` and `githubId` are nullable
columns (`none` = NULL). -/
structure DbUser where
  id : Nat
  name : String
  email : String
  password : Option BcryptHash
  githubId : Option Nat
  token_version : Nat
deriving Repr, DecidableEq

/-- The abstract relational store: the rows of the `users` table in
insertion order. -/
abbrev Store := List DbUser

/-- Modelled from the spec: the `users` table schema/migration is not under
`src/`; per the spec the id is store-assigned and immutable, modelled as a
fresh id strictly larger than every existing id. -/
def freshId (store : Store) : Nat :=
  store.foldr (fun u m => max u.id m) 0 + 1

/-- A user object as returned to the caller.  JS objects distinguish an
absent field from a field holding `null`, so the password field is
`Option (Option BcryptHash)`: `none` means the field was stripped
(`const \x7b password: omit, ...rest \x7d = user`), `some v` means the field is
present with column value `v`. -/
structure UserObj where
  id : Nat
  name : String
  email : String
  passwordField : Option (Option BcryptHash)
  githubId : Option Nat
  token_version : Nat
deriving Repr, DecidableEq

/-- The `...rest` projection: the row with the password field removed. -/
def stripPassword (u : DbUser) : UserObj :=
  ⟨u.id, u.name, u.email, none, u.githubId, u.token_version⟩

/-- The row returned unprojected (every column present as a field). -/
def rawUserObj (u : DbUser) : UserObj :=
  ⟨u.id, u.name, u.email, some u.password, u.githubId, u.token_version⟩

/-- Result shape `\x7b user, refreshToken, accessToken \x7d` shared by `login`,
`register` and `githubData`. -/
structure AuthResult where
  user : UserObj
  refreshToken : Jwt
  accessToken : Jwt
deriving Repr, DecidableEq

/-- Embedding of `login` (auth.ts lines 13–42): look up by email (404 when
absent), `bcrypt.compare` against the stored column (its rejection
propagates, as an uncaught `await` throw does), 401 on mismatch, else sign
both tokens and return the user with the password field stripped.  `login`
performs only SELECTs, so it does not return a store. -/
def login (env : Env) (now : Nat) (store : Store) (email password : String) :
    Except Err AuthResult :=
  match store.filter (fun u => decide (u.email = email)) with
  | [] => .error (.appError 404 "User with given e-mail address not found.")
  | user :: _ =>
    match bcryptCompare password user.password with
    | .error e => .error e
    | .ok m =>
      if !m then .error (.appError 401 "Invalid password.")
      else
        .ok ⟨stripPassword user,
             jwtSign ⟨user.id, user.token_version⟩ env.refreshSecret now env.refreshExpiration,
             jwtSign ⟨user.id, user.token_version⟩ env.accessSecret now env.accessExpiration⟩

/-- Embedding of `register` (auth.ts lines 51–91): email existence check,
then name existence check, then hash and insert (the inserted row gets a
fresh id and, per the spec-modelled schema default, `token_version = 0`),
then tokens and the stripped user.  Returns the result together with the
store after the call; `confirmPassword` is accepted and ignored (validated
at the boundary). -/
def register (env : Env) (now salt : Nat) (store : Store)
    (name email password confirmPassword : String) :
    Except Err AuthResult × Store :=
  match store.filter (fun u => decide (u.email = email)) with
  | _ :: _ => (.error (.appError 422 "E-mail address is already taken."), store)
  | [] =>
    match store.filter (fun u => decide (u.name = name)) with
    | _ :: _ => (.error (.appError 422 "Name is already taken."), store)
    | [] =>
      let user : DbUser :=
        ⟨freshId store, name, email, some (bcryptHash password salt), none, 0⟩
      (.ok ⟨stripPassword user,
            jwtSign ⟨user.id, user.token_version⟩ env.refreshSecret now env.refreshExpiration,
            jwtSign ⟨user.id, user.token_version⟩ env.accessSecret now env.accessExpiration⟩,
       store ++ [user])

/-- Result shape `\x7b accessToken \x7d` of a successful refresh. -/
structure RefreshResult where
  accessToken : Jwt
deriving Repr, DecidableEq

/-- Embedding of `refreshToken` (auth.ts lines 98–118): `jwt.verify` against
the refresh secret (its throw propagates uncaught), then look up a user by
id AND token_version from the payload; 401 `AppError` when no row matches,
else sign and return a new access token only. -/
def refreshToken (env : Env) (now : Nat) (store : Store) (token : Jwt) :
    Except Err RefreshResult :=
  match jwtVerify token env.refreshSecret now with
  | .error e => .error e
  | .ok payload =>
    match store.filter (fun u =>
        decide (u.id = payload.userId) && decide (u.token_version = payload.tokenVersion)) with
    | [] => .error (.appError 401 "Refresh token is invalid.")
    | user :: _ =>
      .ok ⟨jwtSign ⟨user.id, user.token_version⟩ env.accessSecret now env.accessExpiration⟩

/-- One entry of the GitHub `/user/emails` response. -/
structure GithubEmail where
  email : String
  primary : Bool
  verified : Bool
  visibility : String
deriving Repr, DecidableEq

/-- The fields of the GitHub `/user` response that `githubData` reads. -/
structure GithubUser where
  id : Nat
  login : String
deriving Repr, DecidableEq

/-- Embedding of `githubData` (auth.ts lines 148–219), with the two provider
responses as explicit inputs.  `const \x7b email \x7d = data.find(e => e.primary)`
throws a `TypeError` when no entry is flagged primary (destructuring
`undefined`), before any store access.  Otherwise: if a row with this
`githubId` exists, issue tokens for it with the password field stripped;
else check email then name uniqueness (422 conflicts, store untouched);
else insert `\x7b githubId, email, name \x7d` (no password) and return the
inserted row unprojected together with both tokens. -/
def githubData (env : Env) (now : Nat) (store : Store)
    (emails : List GithubEmail) (ghUser : GithubUser) :
    Except Err AuthResult × Store :=
  match emails.find? (fun e => e.primary) with
  | none => (.error (.typeError "Cannot destructure property of undefined"), store)
  | some primaryEmail =>
    match store.filter (fun u => decide (u.githubId = some ghUser.id)) with
    | user :: _ =>
      (.ok ⟨stripPassword user,
            jwtSign ⟨user.id, user.token_version⟩ env.refreshSecret now env.refreshExpiration,
            jwtSign ⟨user.id, user.token_version⟩ env.accessSecret now env.accessExpiration⟩,
       store)
    | [] =>
      match store.filter (fun u => decide (u.email = primaryEmail.email)) with
      | _ :: _ => (.error (.appError 422 "E-mail address is already taken."), store)
      | [] =>
        match store.filter (fun u => decide (u.name = ghUser.login)) with
        | _ :: _ => (.error (.appError 422 "Name is already taken."), store)
        | [] =>
          let user : DbUser :=
            ⟨freshId store, ghUser.login, primaryEmail.email, none, some ghUser.id, 0⟩
          (.ok ⟨rawUserObj user,
                jwtSign ⟨user.id, user.token_version⟩ env.refreshSecret now env.refreshExpiration,
                jwtSign ⟨user.id, user.token_version⟩ env.accessSecret now env.accessExpiration⟩,
           store ++ [user])

/-- Modelled from the spec: the boundary/error-handling middleware (the
`AppError` class in `utils/` and the layer mapping flow failures to
transport statuses) is not under `src/`.  Per the spec it passes the typed
`AppError` status through and surfaces `TokenInvalid`/`TokenExpired` as
`Unauthorized` (401-equivalent); an error outside the taxonomy is a plain
500 server error. -/
def boundaryStatus : Err → Nat
  | .appError s _ => s
  | .jwtInvalid => 401
  | .jwtExpired => 401
  | .bcryptError _ => 500
  | .typeError _ => 500

/-- The refresh operation as observed through the boundary: the service
result, with a failure mapped to its transport status. -/
def refreshEndpoint (env : Env) (now : Nat) (store : Store) (token : Jwt) :
    Except Nat RefreshResult :=
  (refreshToken env now store token).mapError boundaryStatus

/-- One sequentially executed operation of the core.  `salt` is the random
salt consumed by the register flow's `bcrypt.hash` call. -/
inductive Op where
  | loginOp (email password : String)
  | registerOp (name email password confirmPassword : String) (salt : Nat)
  | refreshOp (token : Jwt)
  | githubOp (emails : List GithubEmail) (ghUser : GithubUser)

/-- The store after one operation.  `login` and `refreshToken` perform only
SELECT queries, so they leave the store as it is; `register` and
`githubData` return their updated store. -/
def applyOp (env : Env) (now : Nat) (store : Store) : Op → Store
  | .loginOp _ _ => store
  | .registerOp n e p c s => (register env now s store n e p c).2
  | .refreshOp _ => store
  | .githubOp es gu => (githubData env now store es gu).2

/-- Distinctness of one pair of rows: distinct emails, distinct names, and
not both bound to the same provider id (equivalently, the first row's
`githubId` is NULL or differs from the second row's). -/
def UniqueUser (u v : DbUser) : Prop :=
  u.email ≠ v.email ∧ u.name ≠ v.name ∧ (u.githubId = none ∨ u.githubId ≠ v.githubId)

instance : DecidableRel UniqueUser := fun u v => by
  unfold UniqueUser; infer_instance

/-- The store invariant: email is globally unique, name is globally unique,
and provider id, when non-null, is globally unique. -/
def Invariant (store : Store) : Prop :=
  store.Pairwise UniqueUser

instance : DecidablePred Invariant := fun store => by
  unfold Invariant; infer_instance

/-- Projection of a provider email entry to the fields `githubData` ever
reads: the address and the primary flag. -/
def emailCore (e : GithubEmail) : String × Bool :=
  (e.email, e.primary)

/-- Concrete configuration used by the concrete evaluations below. -/
def env0 : Env := ⟨"refresh-secret", "access-secret", 604800, 900⟩

/-- Concrete federation-only row: created by the GitHub flow, so its
`password` column is NULL. -/
def fedOnlyUser : DbUser := ⟨1, "ana", "ana@example.com", none, some 7, 0⟩

/-- Concrete local row with a stored password hash. -/
def localUser : DbUser := ⟨1, "ana", "ana@example.com", some (bcryptHash "Secret1!" 3), none, 0⟩

/-- Concrete primary provider email entry. -/
def ghEmail0 : GithubEmail := ⟨"ana@example.com", true, true, "public"⟩

/-- Concrete provider account. -/
def ghUser0 : GithubUser := ⟨7, "ana"⟩

/-! Helper lemmas shared by the claim theorems. -/

theorem filter_eq_nil_iff_forall {α} {p : α → Bool} {l : List α} :
    l.filter p = [] ↔ ∀ a ∈ l, ¬ p a := by
  induction l with
  | nil => simp
  | cons b l ih =>
    by_cases hb : p b <;> simp [List.filter_cons, hb, ih]

theorem mem_of_filter_cons {α} {p : α → Bool} {l : List α} {a : α} {rest : List α}
    (h : l.filter p = a :: rest) : a ∈ l ∧ p a := by
  have : a ∈ l.filter p := by rw [h]; exact List.mem_cons_self a rest
  exact ⟨List.mem_of_mem_filter this, List.of_mem_filter this⟩

/-- C1: a refresh token that fails signature verification against the
refresh secret, or whose TTL has elapsed (this covers the well-formed but
expired token), makes the refresh operation fail Unauthorized: through the
boundary it is exactly `401` with no access token issued, and the
service-level failure is the typed signature-kind or expiry-kind token
error, never anything untyped. -/
theorem refresh_bad_token_unauthorized (env : Env) (now : Nat) (store : Store) (t : Jwt)
    (h : t.secret ≠ env.refreshSecret ∨ t.iat + t.ttl ≤ now) :
    refreshEndpoint env now store t = .error 401 ∧
    (refreshToken env now store t = .error .jwtInvalid ∨
     refreshToken env now store t = .error .jwtExpired) := by
  have hv : jwtVerify t env.refreshSecret now = .error .jwtInvalid ∨
      jwtVerify t env.refreshSecret now = .error .jwtExpired := by
    by_cases hs : t.secret = env.refreshSecret
    · right
      rcases h with h | h
      · exact absurd hs h
      · simp [jwtVerify, hs, h]
    · left
      simp [jwtVerify, hs]
  rcases hv with hv | hv <;>
    simp [refreshEndpoint, refreshToken, hv, Except.mapError, boundaryStatus]

/-- Witness for C1 at a concrete input: a token signed with the correct
refresh secret whose TTL has elapsed is rejected as 401. -/
theorem refresh_bad_token_unauthorized_witness :
    refreshEndpoint env0 604800 [] (jwtSign ⟨1, 0⟩ "refresh-secret" 0 604800) = .error 401 ∧
    (refreshToken env0 604800 [] (jwtSign ⟨1, 0⟩ "refresh-secret" 0 604800) = .error .jwtInvalid ∨
     refreshToken env0 604800 [] (jwtSign ⟨1, 0⟩ "refresh-secret" 0 604800) = .error .jwtExpired) :=
  refresh_bad_token_unauthorized env0 604800 [] (jwtSign ⟨1, 0⟩ "refresh-secret" 0 604800)
    (Or.inr (by decide))

/-- C2, the code evaluated at the failing input: logging in against a
federation-only account (NULL `password` column) makes `bcrypt.compare`
reject, so `login` ends in the untyped bcrypt error instead of the typed
401 `InvalidCredential`. -/
theorem login_federation_only_untyped_error :
    login env0 0 [fedOnlyUser] "ana@example.com" "Secret1!" =
      .error (.bcryptError "data and hash arguments required") := by
  rfl

/-- Counterexample to C3: a successful first-time federated signup (here on
the empty store) returns the user object with the password field present,
holding the NULL column value — `some none`, not the absent `none`. -/
theorem githubData_first_time_password_field_present :
    (githubData env0 0 [] [ghEmail0] ghUser0).1.map (fun r => r.user.passwordField) =
      .ok (some none) ∧
    some (none : Option BcryptHash) ≠ none := by
  exact ⟨by rfl, by decide⟩

/-- C3 as amended: `login`, `register` and the existing-binding branch of
`githubData` return the user with the password field stripped; the
first-time federation branch returns the inserted row unprojected, so its
password field is present but holds NULL (never a hash). -/
theorem success_strips_password_except_first_federation
    (env : Env) (now salt : Nat) (store : Store)
    (name email password confirmPassword lemail lpassword : String)
    (emails : List GithubEmail) (gu : GithubUser) :
    (∀ r, login env now store lemail lpassword = .ok r → r.user.passwordField = none) ∧
    (∀ r, (register env now salt store name email password confirmPassword).1 = .ok r →
        r.user.passwordField = none) ∧
    (∀ r, (githubData env now store emails gu).1 = .ok r →
        (store.filter (fun u => decide (u.githubId = some gu.id)) ≠ [] →
            r.user.passwordField = none) ∧
        (store.filter (fun u => decide (u.githubId = some gu.id)) = [] →
            r.user.passwordField = some none)) := by
  refine ⟨?_, ?_, ?_⟩
  · intro r hr
    unfold login at hr
    split at hr
    · exact absurd hr (by simp)
    · split at hr
      · exact absurd hr (by simp)
      · split at hr
        · exact absurd hr (by simp)
        · cases hr
          rfl
  · intro r hr
    unfold register at hr
    split at hr
    · exact absurd hr (by simp)
    · split at hr
      · exact absurd hr (by simp)
      · cases hr
        rfl
  · intro r hr
    unfold githubData at hr
    split at hr
    · exact absurd hr (by simp)
    · split at hr
      · cases hr
        refine ⟨fun _ => rfl, fun hnil => ?_⟩
        simp_all
      · split at hr
        · exact absurd hr (by simp)
        · split at hr
          · exact absurd hr (by simp)
          · cases hr
            refine ⟨fun hne => ?_, fun _ => rfl⟩
            simp_all

/-- Witness for C3 as amended: the stripped register result on the empty
store has no password field. -/
theorem success_strips_password_witness :
    (stripPassword ⟨1, "ana", "a@x.com", some (bcryptHash "pw" 3), none, 0⟩).passwordField =
      none :=
  (success_strips_password_except_first_federation env0 0 3 [] "ana" "a@x.com" "pw" "pw"
      "b" "c" [] ⟨0, "d"⟩).2.1 _ rfl

/-- C4: once the refresh token verifies with payload `p`, the refresh
operation succeeds exactly when the store holds a user whose id equals
`p.userId` and whose stored token-version equals `p.tokenVersion`; when no
such user exists (deleted user or bumped version — in particular every
token issued before a version bump) it fails with the typed 401. -/
theorem refresh_exact_version_match (env : Env) (now : Nat) (store : Store) (t : Jwt)
    (p : Payload) (hv : jwtVerify t env.refreshSecret now = .ok p) :
    ((∃ u, u ∈ store ∧ u.id = p.userId ∧ u.token_version = p.tokenVersion) ↔
        ∃ r, refreshToken env now store t = .ok r) ∧
    ((¬ ∃ u, u ∈ store ∧ u.id = p.userId ∧ u.token_version = p.tokenVersion) →
        refreshToken env now store t = .error (.appError 401 "Refresh token is invalid.")) := by
  have hiff : (store.filter (fun u =>
      decide (u.id = p.userId) && decide (u.token_version = p.tokenVersion)) = [])
      ↔ ¬ ∃ u, u ∈ store ∧ u.id = p.userId ∧ u.token_version = p.tokenVersion := by
    rw [filter_eq_nil_iff_forall]
    constructor
    · rintro h ⟨u, hu, h1, h2⟩
      exact h u hu (by simp [h1, h2])
    · intro h u hu hp
      simp only [Bool.and_eq_true, decide_eq_true_eq] at hp
      exact h ⟨u, hu, hp.1, hp.2⟩
  constructor
  · constructor
    · intro hex
      cases hfe : store.filter (fun u =>
          decide (u.id = p.userId) && decide (u.token_version = p.tokenVersion)) with
      | nil => exact absurd hex (hiff.mp hfe)
      | cons u rest =>
        exact ⟨⟨jwtSign ⟨u.id, u.token_version⟩ env.accessSecret now env.accessExpiration⟩,
          by simp [refreshToken, hv, hfe]⟩
    · rintro ⟨r, hr⟩
      cases hfe : store.filter (fun u =>
          decide (u.id = p.userId) && decide (u.token_version = p.tokenVersion)) with
      | nil => simp [refreshToken, hv, hfe] at hr
      | cons u rest =>
        obtain ⟨hu, hp⟩ := mem_of_filter_cons hfe
        simp only [Bool.and_eq_true, decide_eq_true_eq] at hp
        exact ⟨u, hu, hp.1, hp.2⟩
  · intro hnone
    simp [refreshToken, hv, hiff.mpr hnone]

/-- Witness for C4 at a concrete input: a verified token for user id 1 at
version 0 is rejected 401 on the empty store (no matching user). -/
theorem refresh_exact_version_match_witness :
    refreshToken env0 0 [] (jwtSign ⟨1, 0⟩ "refresh-secret" 0 604800) =
      .error (.appError 401 "Refresh token is invalid.") :=
  (refresh_exact_version_match env0 0 [] (jwtSign ⟨1, 0⟩ "refresh-secret" 0 604800) ⟨1, 0⟩
    rfl).2 (by simp)

/-- C5: the email existence check runs before the name existence check in
both `register` and the first-time branch of `githubData`, so when the
email and the name are both already taken, the reported 422 conflict is the
email conflict. -/
theorem email_conflict_precedence (env : Env) (now salt : Nat) (store : Store)
    (emails : List GithubEmail) (gu : GithubUser) (e : GithubEmail)
    (password confirmPassword : String)
    (hfind : emails.find? (fun x => x.primary) = some e)
    (hnobind : store.filter (fun u => decide (u.githubId = some gu.id)) = [])
    (hemail : ∃ u, u ∈ store ∧ u.email = e.email)
    (hname : ∃ u, u ∈ store ∧ u.name = gu.login) :
    (register env now salt store gu.login e.email password confirmPassword).1 =
      .error (.appError 422 "E-mail address is already taken.") ∧
    (githubData env now store emails gu).1 =
      .error (.appError 422 "E-mail address is already taken.") := by
  obtain ⟨u, hu, hue⟩ := hemail
  cases hfc : store.filter (fun v => decide (v.email = e.email)) with
  | nil => exact absurd ((filter_eq_nil_iff_forall.mp hfc) u hu) (by simp [hue])
  | cons w rest =>
    constructor
    · simp [register, hfc]
    · simp [githubData, hfind, hnobind, hfc]

/-- Witness for C5 at a concrete input: both the email and the name of the
stored local user are taken by the incoming registration/federation, and
both flows report the email conflict. -/
theorem email_conflict_precedence_witness :
    (register env0 0 3 [localUser] "ana" "ana@example.com" "pw" "pw").1 =
      .error (.appError 422 "E-mail address is already taken.") ∧
    (githubData env0 0 [localUser] [ghEmail0] ghUser0).1 =
      .error (.appError 422 "E-mail address is already taken.") :=
  email_conflict_precedence env0 0 3 [localUser] [ghEmail0] ghUser0 ghEmail0 "pw" "pw"
    rfl rfl ⟨localUser, by simp, rfl⟩ ⟨localUser, by simp, rfl⟩

/-- C6: whenever `register` or `githubData` ends in an error — which
includes both 422 conflicts — the store after the call is exactly the store
before it: no row was inserted and no existing row was touched. -/
theorem conflict_leaves_store_unchanged (env : Env) (now salt : Nat) (store : Store)
    (name email password confirmPassword : String)
    (emails : List GithubEmail) (gu : GithubUser) :
    (∀ e, (register env now salt store name email password confirmPassword).1 = .error e →
        (register env now salt store name email password confirmPassword).2 = store) ∧
    (∀ e, (githubData env now store emails gu).1 = .error e →
        (githubData env now store emails gu).2 = store) := by
  constructor
  · intro e he
    cases h1 : store.filter (fun u => decide (u.email = email)) with
    | cons a l => simp [register, h1]
    | nil =>
      cases h2 : store.filter (fun u => decide (u.name = name)) with
      | cons a l => simp [register, h1, h2]
      | nil => simp [register, h1, h2] at he
  · intro e he
    cases hf : emails.find? (fun x => x.primary) with
    | none => simp [githubData, hf]
    | some pe =>
      cases h0 : store.filter (fun u => decide (u.githubId = some gu.id)) with
      | cons a l => simp [githubData, hf, h0]
      | nil =>
        cases h1 : store.filter (fun u => decide (u.email = pe.email)) with
        | cons a l => simp [githubData, hf, h0, h1]
        | nil =>
          cases h2 : store.filter (fun u => decide (u.name = gu.login)) with
          | cons a l => simp [githubData, hf, h0, h1, h2]
          | nil => simp [githubData, hf, h0, h1, h2] at he

/-- Witness for C6 at a concrete input: a register hitting the email
conflict leaves the one-row store exactly as it was. -/
theorem conflict_leaves_store_unchanged_witness :
    (register env0 0 3 [localUser] "bob" "ana@example.com" "pw" "pw").2 = [localUser] :=
  (conflict_leaves_store_unchanged env0 0 3 [localUser] "bob" "ana@example.com" "pw" "pw"
    [] ghUser0).1 (.appError 422 "E-mail address is already taken.") rfl

theorem bcryptCompare_error_shape {password : String} {h : Option BcryptHash} {e : Err}
    (he : bcryptCompare password h = .error e) :
    e = .bcryptError "data and hash arguments required" := by
  cases h with
  | none =>
    simp [bcryptCompare] at he
    exact he.symm
  | some hh => simp [bcryptCompare] at he

/-- C8: `login` fails with the typed 404 exactly when no stored user has
the given email, and with the typed 401 exactly when such a user exists
(the first row returned) and bcrypt verification against its stored hash
returns false; the two failures are distinct `AppError` values. -/
theorem login_error_taxonomy (env : Env) (now : Nat) (store : Store)
    (email password : String) :
    (login env now store email password =
        .error (.appError 404 "User with given e-mail address not found.") ↔
      store.filter (fun u => decide (u.email = email)) = []) ∧
    (login env now store email password = .error (.appError 401 "Invalid password.") ↔
      ∃ u rest, store.filter (fun v => decide (v.email = email)) = u :: rest ∧
        bcryptCompare password u.password = .ok false) := by
  cases hfe : store.filter (fun u => decide (u.email = email)) with
  | nil =>
    refine ⟨by simp [login, hfe], ?_, ?_⟩
    · intro h
      simp [login, hfe] at h
    · rintro ⟨u, rest, hur, -⟩
      exact absurd hur.symm (List.cons_ne_nil u rest)
  | cons u rest =>
    cases hbc : bcryptCompare password u.password with
    | error e =>
      have hshape := bcryptCompare_error_shape hbc
      subst hshape
      refine ⟨⟨fun h => ?_, fun h => ?_⟩, fun h => ?_, fun h => ?_⟩
      · simp [login, hfe, hbc] at h
      · exact absurd h (List.cons_ne_nil u rest)
      · simp [login, hfe, hbc] at h
      · obtain ⟨v, vrest, hvr, hcomp⟩ := h
        injection hvr with h1 h2
        subst h1
        rw [hbc] at hcomp
        cases hcomp
    | ok b =>
      cases b with
      | false =>
        refine ⟨⟨fun h => ?_, fun h => ?_⟩, fun _ => ⟨u, rest, rfl, hbc⟩, fun _ => ?_⟩
        · simp [login, hfe, hbc] at h
        · exact absurd h (List.cons_ne_nil u rest)
        · simp [login, hfe, hbc]
      | true =>
        refine ⟨⟨fun h => ?_, fun h => ?_⟩, fun h => ?_, fun h => ?_⟩
        · simp [login, hfe, hbc] at h
        · exact absurd h (List.cons_ne_nil u rest)
        · simp [login, hfe, hbc] at h
        · obtain ⟨v, vrest, hvr, hcomp⟩ := h
          injection hvr with h1 h2
          subst h1
          rw [hbc] at hcomp
          simp at hcomp

/-- Witness for C8 at a concrete input: on the empty store, login with any
email is the typed 404. -/
theorem login_error_taxonomy_witness :
    login env0 0 [] "ana@example.com" "pw" =
      .error (.appError 404 "User with given e-mail address not found.") :=
  (login_error_taxonomy env0 0 [] "ana@example.com" "pw").1.mpr rfl

theorem invariant_insert (store : Store) (u : DbUser)
    (hinv : Invariant store)
    (he : ∀ v ∈ store, v.email ≠ u.email)
    (hn : ∀ v ∈ store, v.name ≠ u.name)
    (hg : ∀ v ∈ store, v.githubId = none ∨ v.githubId ≠ u.githubId) :
    Invariant (store ++ [u]) := by
  unfold Invariant at *
  rw [List.pairwise_append]
  refine ⟨hinv, by simp, ?_⟩
  intro a ha b hb
  rw [List.mem_singleton] at hb
  subst hb
  exact ⟨he a ha, hn a ha, hg a ha⟩

theorem register_preserves_invariant (env : Env) (now salt : Nat) (store : Store)
    (name email password confirmPassword : String) (hinv : Invariant store) :
    Invariant (register env now salt store name email password confirmPassword).2 := by
  cases h1 : store.filter (fun u => decide (u.email = email)) with
  | cons a l => simpa [register, h1] using hinv
  | nil =>
    cases h2 : store.filter (fun u => decide (u.name = name)) with
    | cons a l => simpa [register, h1, h2] using hinv
    | nil =>
      have hres : (register env now salt store name email password confirmPassword).2 =
          store ++ [⟨freshId store, name, email, some (bcryptHash password salt), none, 0⟩] := by
        simp [register, h1, h2]
      rw [hres]
      apply invariant_insert store _ hinv
      · intro v hv
        simpa using filter_eq_nil_iff_forall.mp h1 v hv
      · intro v hv
        simpa using filter_eq_nil_iff_forall.mp h2 v hv
      · intro v hv
        cases hvg : v.githubId with
        | none => exact Or.inl rfl
        | some g => exact Or.inr (by simp [hvg])

theorem githubData_preserves_invariant (env : Env) (now : Nat) (store : Store)
    (emails : List GithubEmail) (gu : GithubUser) (hinv : Invariant store) :
    Invariant (githubData env now store emails gu).2 := by
  cases hf : emails.find? (fun x => x.primary) with
  | none => simpa [githubData, hf] using hinv
  | some pe =>
    cases h0 : store.filter (fun u => decide (u.githubId = some gu.id)) with
    | cons a l => simpa [githubData, hf, h0] using hinv
    | nil =>
      cases h1 : store.filter (fun u => decide (u.email = pe.email)) with
      | cons a l => simpa [githubData, hf, h0, h1] using hinv
      | nil =>
        cases h2 : store.filter (fun u => decide (u.name = gu.login)) with
        | cons a l => simpa [githubData, hf, h0, h1, h2] using hinv
        | nil =>
          have hres : (githubData env now store emails gu).2 =
              store ++ [⟨freshId store, gu.login, pe.email, none, some gu.id, 0⟩] := by
            simp [githubData, hf, h0, h1, h2]
          rw [hres]
          apply invariant_insert store _ hinv
          · intro v hv
            simpa using filter_eq_nil_iff_forall.mp h1 v hv
          · intro v hv
            simpa using filter_eq_nil_iff_forall.mp h2 v hv
          · intro v hv
            exact Or.inr (by simpa using filter_eq_nil_iff_forall.mp h0 v hv)

/-- C7: the uniqueness invariant — email globally unique, name globally
unique, provider id globally unique when non-null — is preserved by any
sequential execution of core operations from a state satisfying it
(`login` and `refreshToken` only read the store; `register` and
`githubData` insert only after their existence checks pass). -/
theorem invariant_preserved_sequential (env : Env) (now : Nat) (ops : List Op)
    (store : Store) (hinv : Invariant store) :
    Invariant (ops.foldl (fun s op => applyOp env now s op) store) := by
  induction ops generalizing store with
  | nil => exact hinv
  | cons op ops ih =>
    rw [List.foldl_cons]
    apply ih
    cases op with
    | loginOp e p => exact hinv
    | registerOp n e p c s =>
      exact register_preserves_invariant env now s store n e p c hinv
    | refreshOp t => exact hinv
    | githubOp es gu =>
      exact githubData_preserves_invariant env now store es gu hinv

/-- Witness for C7 at a concrete input: a register followed by a first-time
federated signup, from the empty store, ends in a store satisfying the
invariant. -/
theorem invariant_preserved_sequential_witness :
    Invariant (([Op.registerOp "carl" "carl@example.com" "pw" "pw" 3,
        Op.githubOp [ghEmail0] ghUser0] : List Op).foldl
      (fun s op => applyOp env0 0 s op) []) :=
  invariant_preserved_sequential env0 0
    [Op.registerOp "carl" "carl@example.com" "pw" "pw" 3,
     Op.githubOp [ghEmail0] ghUser0] [] (by decide)

/-- C9: a successful refresh returns exactly the one-field record holding a
single freshly signed access token (signed with the access secret at the
time of the call); no refresh token is part of the result, and — whenever
the two secrets differ, as the two trust domains require — the returned
token does not verify against the refresh secret at any time. -/
theorem refresh_success_only_access_token (env : Env) (now : Nat) (store : Store)
    (t : Jwt) (p : Payload) (u : DbUser) (rest : List DbUser)
    (hv : jwtVerify t env.refreshSecret now = .ok p)
    (hu : store.filter (fun v =>
        decide (v.id = p.userId) && decide (v.token_version = p.tokenVersion)) = u :: rest) :
    refreshToken env now store t =
      .ok ⟨jwtSign ⟨u.id, u.token_version⟩ env.accessSecret now env.accessExpiration⟩ ∧
    (env.accessSecret ≠ env.refreshSecret → ∀ m,
        jwtVerify (jwtSign ⟨u.id, u.token_version⟩ env.accessSecret now env.accessExpiration)
          env.refreshSecret m = .error .jwtInvalid) := by
  constructor
  · simp [refreshToken, hv, hu]
  · intro hne m
    simp [jwtVerify, jwtSign, hne]

/-- Witness for C9 at a concrete input: refreshing with a valid token for
the stored user yields exactly the new access token. -/
theorem refresh_success_only_access_token_witness :
    refreshToken env0 5 [localUser] (jwtSign ⟨1, 0⟩ "refresh-secret" 0 604800) =
      .ok ⟨jwtSign ⟨1, 0⟩ "access-secret" 5 900⟩ :=
  (refresh_success_only_access_token env0 5 [localUser]
    (jwtSign ⟨1, 0⟩ "refresh-secret" 0 604800) ⟨1, 0⟩ localUser [] rfl rfl).1

theorem find_primary_congr (l1 l2 : List GithubEmail)
    (h : l1.map emailCore = l2.map emailCore) :
    Option.map (fun e => e.email) (l1.find? (fun e => e.primary)) =
      Option.map (fun e => e.email) (l2.find? (fun e => e.primary)) ∧
    ((l1.find? (fun e => e.primary) = none) ↔ (l2.find? (fun e => e.primary) = none)) := by
  induction l1 generalizing l2 with
  | nil =>
    cases l2 with
    | nil => simp
    | cons b m => simp at h
  | cons a l ih =>
    cases l2 with
    | nil => simp at h
    | cons b m =>
      simp only [List.map_cons, List.cons.injEq, emailCore, Prod.mk.injEq] at h
      obtain ⟨⟨he, hp⟩, hrest⟩ := h
      by_cases hap : a.primary = true
      · rw [List.find?_cons_of_pos _ hap, List.find?_cons_of_pos _ (hp ▸ hap)]
        simp [he]
      · rw [List.find?_cons_of_neg _ hap, List.find?_cons_of_neg _ (hp ▸ hap)]
        exact ih m hrest

theorem githubData_email_core_only (env : Env) (now : Nat) (store : Store)
    (emails emails2 : List GithubEmail) (gu : GithubUser)
    (h : emails2.map emailCore = emails.map emailCore) :
    githubData env now store emails2 gu = githubData env now store emails gu := by
  obtain ⟨hmap, hnone⟩ := find_primary_congr emails2 emails h
  cases hf2 : emails2.find? (fun e => e.primary) with
  | none =>
    have hf : emails.find? (fun e => e.primary) = none := hnone.mp hf2
    simp [githubData, hf2, hf]
  | some pe2 =>
    cases hf : emails.find? (fun e => e.primary) with
    | none =>
      rw [hf2, hf] at hnone
      simp at hnone
    | some pe =>
      rw [hf2, hf] at hmap
      simp at hmap
      simp [githubData, hf2, hf, hmap]

/-- C10: when the provider email list has no entry flagged primary,
`githubData` ends in the untyped JS `TypeError` (destructuring the
`undefined` result of `find`) with the store untouched — no query has run;
every success requires a primary-flagged entry to exist; and the result
depends only on the address/primary projection of the email entries, so
the `verified` (and `visibility`) flags are never consulted. -/
theorem githubData_requires_primary_email (env : Env) (now : Nat) (store : Store)
    (emails emails2 : List GithubEmail) (gu : GithubUser) :
    (emails.find? (fun e => e.primary) = none →
        githubData env now store emails gu =
          (.error (.typeError "Cannot destructure property of undefined"), store)) ∧
    (∀ r s, githubData env now store emails gu = (.ok r, s) →
        ∃ e, e ∈ emails ∧ e.primary = true) ∧
    (emails2.map emailCore = emails.map emailCore →
        githubData env now store emails2 gu = githubData env now store emails gu) := by
  refine ⟨?_, ?_, ?_⟩
  · intro hf
    simp [githubData, hf]
  · intro r s hok
    cases hf : emails.find? (fun e => e.primary) with
    | none => simp [githubData, hf] at hok
    | some pe =>
      exact ⟨pe, List.mem_of_find?_eq_some hf, by simpa using List.find?_some hf⟩
  · exact githubData_email_core_only env now store emails emails2 gu

/-- Witness for C10 at a concrete input: an email list with entries but no
primary flag makes `githubData` end in the `TypeError` with the store
untouched. -/
theorem githubData_requires_primary_email_witness :
    githubData env0 0 [localUser] [⟨"other@example.com", false, true, "private"⟩] ghUser0 =
      (.error (.typeError "Cannot destructure property of undefined"), [localUser]) :=
  (githubData_requires_primary_email env0 0 [localUser]
    [⟨"other@example.com", false, true, "private"⟩] [] ghUser0).1 rfl

end InstagramClone
